import Mathlib

/-!
Shallow embedding of the core logic of the day-gated A2 language trainer
(`src/App.jsx`): progress store, quiz scoring, output-rule evaluation,
listening-segment normalization/flattening, and the speech-queue controller.

Conventions used in the embedding:
* JavaScript numbers that the app only ever uses as integers (day counters)
  are `Int`; quiz ratios/thresholds are `ℚ` (JS floating point is exact on
  the small fractions involved here).
* A JS value that may be `undefined`/`null`/absent is an `Option`.
* JS string truthiness (`if (s)`) is `s ≠ ""` on a present string.
* A compiled case-insensitive `RegExp` is modelled by its test predicate
  `String → Bool` (only the empty pattern list is evaluated concretely here).
* JS objects used as answer maps (`{...prev, [k]: v}`) are association lists
  with an overwriting `set`.
-/

namespace A2Trainer

/-! ## String helpers (`countSentences`, `normalize`, `includesAny`,
`countVocabUsed`, `testRegexAll` from App.jsx lines 25-56) -/

/-- Characters matched by the sentence-terminator class `[.!?]` in
`countSentences`. -/
def isTerminal (c : Char) : Bool := c == '.' || c == '!' || c == '?'

mutual
/-- Splitting a character list on runs of sentence terminators, as
`text.split(/[.!?]+/g)` does: `cur` is the current fragment accumulated in
reverse. -/
def splitTermRunsAux : List Char → List Char → List (List Char)
  | [], cur => [cur.reverse]
  | c :: rest, cur =>
    if isTerminal c then cur.reverse :: skipTermRun rest
    else splitTermRunsAux rest (c :: cur)

/-- Consuming the remainder of a terminator run; the run contributes a single
split boundary no matter its length. -/
def skipTermRun : List Char → List (List Char)
  | [] => [[]]
  | c :: rest =>
    if isTerminal c then skipTermRun rest
    else splitTermRunsAux rest [c]
end

/-- Split a string on runs of `.`/`!`/`?`, as `text.split(/[.!?]+/g)`. -/
def splitTermRuns (text : String) : List String :=
  (splitTermRunsAux text.data []).map List.asString

/-- JS `String.prototype.trim`: drop leading and trailing whitespace
(spelled out on the character list so that the kernel can evaluate it). -/
def jsTrim (s : String) : String :=
  (((s.data.dropWhile Char.isWhitespace).reverse.dropWhile Char.isWhitespace).reverse).asString

/-- App.jsx `countSentences`: split on terminator runs, trim each fragment,
drop empties (`filter(Boolean)`), count the rest. -/
def countSentences (text : String) : Nat :=
  (((splitTermRuns text).map jsTrim).filter (fun s => s != "")).length

/-- JS `String.prototype.toLowerCase` (ASCII lowering suffices for every
string this development evaluates; spelled out on the character list so that
the kernel can evaluate it). -/
def strToLower (s : String) : String := (s.data.map Char.toLower).asString

/-- App.jsx `normalize`: lower-case the text. -/
def normalize (text : String) : String := strToLower text

/-- JS `haystack.includes(needle)` on the underlying character lists. -/
def listIncludes (needle : List Char) : List Char → Bool
  | [] => needle.isEmpty
  | c :: t => needle.isPrefixOf (c :: t) || listIncludes needle t

/-- JS `hay.includes(needle)`. -/
def strIncludes (hay needle : String) : Bool := listIncludes needle.data hay.data

/-- App.jsx `includesAny`: does the normalized text contain any of the words
(case-insensitively)? -/
def includesAny (haystack : String) (words : List String) : Bool :=
  words.any (fun w => strIncludes (normalize haystack) (strToLower w))

/-- App.jsx `countVocabUsed`: count the vocabulary words contained
(case-insensitively, as substrings) in the text. -/
def countVocabUsed (text : String) (vocabList : List String) : Nat :=
  vocabList.foldl
    (fun count w => if strIncludes (normalize text) (strToLower w) then count + 1 else count) 0

/-- App.jsx `testRegexAll`: each pattern (modelled as its compiled test
predicate) is tested independently against the text. -/
def testRegexAll (text : String) (patterns : List (String → Bool)) : List Bool :=
  patterns.map (fun p => p text)

/-! ## Day-plan data model (shapes read from `dayPlans.json` by App.jsx) -/

/-- Vocabulary-list entry `{de, en}`. -/
structure VocabEntry where
  de : String
  en : String
deriving DecidableEq

/-- Vocabulary-quiz question `{word, choices, answer}`. -/
structure VocabQ where
  word : String
  choices : List String
  answer : String
deriving DecidableEq

/-- Grammar-quiz question `{q, choices, a}`. -/
structure GrammarQ where
  q : String
  choices : List String
  a : String
deriving DecidableEq

/-- Grammar block `{title, rules, examples, quiz}`. -/
structure Grammar where
  title : String
  rules : List String
  examples : List String
  quiz : List GrammarQ
deriving DecidableEq

/-- Listening-quiz question `{q, choices, a}`. -/
structure ListenQ where
  q : String
  choices : List String
  a : String
deriving DecidableEq

/-- Listening segment `{id, title, text, repeat, quiz}`; `quiz` is `none` when
the field is absent (the code guards with `seg.quiz || []`). -/
structure Segment where
  id : Int
  title : String
  text : String
  «repeat» : Int
  quiz : Option (List ListenQ)
deriving DecidableEq

/-- Listening block: either a `segments` array, or the legacy flat
`{text, quiz}` shape; absent/non-array fields are `none`. -/
structure Listening where
  segments : Option (List Segment)
  text : Option String
  quiz : Option (List ListenQ)
deriving DecidableEq

/-- Output block `{prompt}`. -/
structure Output where
  prompt : String
deriving DecidableEq

/-- Output rules `{mustIncludeAny, mustIncludeAllPatterns, minSentences,
mustUseVocabAtLeast}`; an absent keyword/pattern list is normalized to `[]`
(the code guards with `|| []`), and each pattern is modelled as its compiled
case-insensitive test predicate. -/
structure OutputRules where
  mustIncludeAny : List String
  mustIncludeAllPatterns : List (String → Bool)
  minSentences : Nat
  mustUseVocabAtLeast : Nat

/-- Pass rules `{minOutputChars, vocabMinCorrect, grammarMinCorrect,
listeningMinCorrect}`. -/
structure PassRules where
  minOutputChars : Nat
  vocabMinCorrect : ℚ
  grammarMinCorrect : ℚ
  listeningMinCorrect : ℚ

/-- One day plan from `dayPlans.json`. -/
structure DayPlan where
  day : Int
  topic : String
  vocab_list : List VocabEntry
  vocab_quiz : List VocabQ
  grammar : Grammar
  listening : Option Listening
  output : Output
  outputRules : OutputRules
  passRules : PassRules

/-! ## Listening helpers (App.jsx lines 59-93) -/

/-- App.jsx `getListeningSegments`: return the `segments` array when it is a
non-empty array; otherwise fall back to the legacy `{text, quiz}` shape when
`text` is truthy; otherwise the empty list. -/
def getListeningSegments (dayPlan : Option DayPlan) : List Segment :=
  match dayPlan with
  | none => []
  | some dp =>
    match dp.listening with
    | none => []
    | some L =>
      match L.segments with
      | some (s :: segs) => s :: segs
      | some [] | none =>
        match L.text with
        | some t =>
          if t ≠ "" then
            [{ id := 1, title := "Listening", text := t, «repeat» := 1,
               quiz := some (L.quiz.getD []) }]
          else []
        | none => []

/-- Composite key `` `${segIndex}-${qIndex}` `` of a flattened listening
question. -/
def mkListeningKey (segIndex qIndex : Nat) : String :=
  toString segIndex ++ "-" ++ toString qIndex

/-- One element of the flattened listening quiz. -/
structure FlatItem where
  segIndex : Nat
  qIndex : Nat
  q : ListenQ
  key : String
deriving DecidableEq

/-- App.jsx `flattenListeningQuiz`: emit every segment's quiz questions in
order, tagged with segment index, in-segment index and the composite key. -/
def flattenListeningQuiz (dayPlan : Option DayPlan) : List FlatItem :=
  (getListeningSegments dayPlan).enum.flatMap fun si =>
    (si.2.quiz.getD []).enum.map fun qi =>
      { segIndex := si.1, qIndex := qi.1, q := qi.2, key := mkListeningKey si.1 qi.1 }

/-! ## Progress store (App.jsx lines 4-23, 139, 258-266) -/

/-- Persisted progress `{currentDay, maxUnlockedDay, mode}`. -/
structure Progress where
  currentDay : Int
  maxUnlockedDay : Int
  mode : String
deriving DecidableEq

/-- Outcome of reading the persistence key, as seen by `loadProgress`:
the value may be absent (or the empty string, which `!saved` also treats as
absent), fail `JSON.parse`, parse to `null` (field access then throws and is
caught), parse to a non-object primitive/array (field access yields
`undefined`), or parse to an object whose three fields are each either
present or `undefined`/`null` (the `??` default kicks in). -/
inductive Stored where
  | absent
  | unparseable
  | null
  | primitive
  | obj (currentDay : Option Int) (maxUnlockedDay : Option Int) (mode : Option String)
deriving DecidableEq

/-- App.jsx `loadProgress`: read the persisted value; every failure path
(absence, parse error, `null`, primitive) lands on the default progress, and
an object contributes each field through `?? 1` / `?? "learn"` defaults.
The `try`/`catch` makes the function total: no error escapes to the caller. -/
def loadProgress (saved : Stored) : Progress :=
  match saved with
  | .absent => { currentDay := 1, maxUnlockedDay := 1, mode := "learn" }
  | .unparseable => { currentDay := 1, maxUnlockedDay := 1, mode := "learn" }
  | .null => { currentDay := 1, maxUnlockedDay := 1, mode := "learn" }
  | .primitive => { currentDay := 1, maxUnlockedDay := 1, mode := "learn" }
  | .obj c m md => { currentDay := c.getD 1, maxUnlockedDay := m.getD 1, mode := md.getD "learn" }

/-- Effective active day (App.jsx `safeDay`):
`Math.min(progress.currentDay, progress.maxUnlockedDay)`. -/
def safeDay (p : Progress) : Int := min p.currentDay p.maxUnlockedDay

/-- App.jsx `goToDay` restricted to the progress snapshot it rewrites:
reject days below 1 or above the unlocked bound, otherwise set the current
day and force learn mode. -/
def goToDayP (day : Int) (p : Progress) : Progress :=
  if day < 1 then p
  else if day > p.maxUnlockedDay then p
  else { p with currentDay := day, mode := "learn" }

/-! ## Quiz scores as computed by `checkPassAndUnlock`
(App.jsx lines 418-426) -/

/-- Vocabulary score: `vocab_quiz?.length ? vocabCorrect / length : 1`. -/
def vocabScoreOf (dp : DayPlan) (vocabCorrect : Nat) : ℚ :=
  if dp.vocab_quiz.length ≠ 0 then (vocabCorrect : ℚ) / (dp.vocab_quiz.length : ℚ) else 1

/-- Grammar score: `grammar?.quiz?.length ? grammarCorrect / length : 1`. -/
def grammarScoreOf (dp : DayPlan) (grammarCorrect : Nat) : ℚ :=
  if dp.grammar.quiz.length ≠ 0 then (grammarCorrect : ℚ) / (dp.grammar.quiz.length : ℚ) else 1

/-- Listening score over the flattened quiz:
`listeningQuizFlat.length ? listeningCorrect / length : 1`. -/
def listeningScoreOf (dp : DayPlan) (listeningCorrect : Nat) : ℚ :=
  if (flattenListeningQuiz (some dp)).length ≠ 0 then
    (listeningCorrect : ℚ) / ((flattenListeningQuiz (some dp)).length : ℚ)
  else 1

/-! ## Output rule evaluator (App.jsx lines 371-415) -/

/-- Report assembled by `evaluateOutput`. -/
structure OutputReport where
  charCount : Nat
  minChars : Nat
  charsOk : Bool
  sentences : Nat
  minSentences : Nat
  sentencesOk : Bool
  mustIncludeAny : List String
  keywordOk : Bool
  patternChecks : List Bool
  patternsOk : Bool
  vocabUsedCount : Nat
  mustUseVocabAtLeast : Nat
  vocabOk : Bool
deriving DecidableEq

/-- App.jsx `evaluateOutput`, as a pure function of the day plan and the
entered text: builds the report (stored via `setOutputReport` by the caller)
and returns the aggregate boolean. -/
def evaluateOutput (dp : DayPlan) (outputText : String) : OutputReport × Bool :=
  let rules := dp.outputRules
  let t := outputText
  let charCount := (jsTrim t).length
  let sentences := countSentences t
  let hasAnyKeywords := includesAny t rules.mustIncludeAny
  let patternChecks := testRegexAll t rules.mustIncludeAllPatterns
  let patternsOk := patternChecks.all (fun b => b)
  let todaysVocabList := dp.vocab_list.map VocabEntry.de
  let vocabUsedCount := countVocabUsed t todaysVocabList
  let report : OutputReport :=
    { charCount
      minChars := dp.passRules.minOutputChars
      charsOk := charCount ≥ dp.passRules.minOutputChars
      sentences
      minSentences := rules.minSentences
      sentencesOk := sentences ≥ rules.minSentences
      mustIncludeAny := rules.mustIncludeAny
      keywordOk := if rules.mustIncludeAny.length = 0 then true else hasAnyKeywords
      patternChecks
      patternsOk
      vocabUsedCount
      mustUseVocabAtLeast := rules.mustUseVocabAtLeast
      vocabOk := vocabUsedCount ≥ rules.mustUseVocabAtLeast }
  (report,
    report.charsOk && report.sentencesOk && report.keywordOk &&
      report.patternsOk && report.vocabOk)

/-! ## Application state and the unlock coordinator
(App.jsx lines 136-260, 417-447) -/

/-- Verdict object produced by `checkPassAndUnlock` (`setResult`). -/
structure Verdict where
  vocabScore : ℚ
  grammarScore : ℚ
  listeningScore : ℚ
  outputOk : Bool
  passed : Bool
deriving DecidableEq

/-- JS object-as-map lookup (`m[k]`, `undefined` as `none`). -/
def objGet [BEq κ] (m : List (κ × String)) (k : κ) : Option String :=
  (m.find? (fun e => e.1 == k)).map (fun e => e.2)

/-- JS spread-update `{...m, [k]: v}`: the key's binding is replaced (or
appended). -/
def objSet [BEq κ] (m : List (κ × String)) (k : κ) (v : String) : List (κ × String) :=
  (m.filter (fun e => !(e.1 == k))) ++ [(k, v)]

/-- Mutable component state relevant to the core logic: the progress
snapshot, the three quiz instances (answer map + running correct count), the
entered output text, and the two result objects. -/
structure AppState where
  progress : Progress
  vocabCorrect : Nat
  vocabChosen : List (Nat × String)
  grammarCorrect : Nat
  grammarChosen : List (Nat × String)
  listeningCorrect : Nat
  listeningChosen : List (String × String)
  outputText : String
  outputReport : Option OutputReport
  result : Option Verdict

/-- App.jsx `goToDay` at component level (progress rewrite only; the
day-change reset effect is applied by `stepOp`). -/
def goToDay (day : Int) (s : AppState) : AppState :=
  { s with progress := goToDayP day s.progress }

/-- App.jsx `checkPassAndUnlock`: look up the active day plan (when none is
found the component bails out before rendering the quiz, so the handler is a
no-op), compute the three scores and the output verdict, store the result,
and on a pass advance the progress in a single snapshot update. -/
def checkPassAndUnlock (dayPlans : List DayPlan) (s : AppState) : AppState :=
  match dayPlans.find? (fun d => d.day == safeDay s.progress) with
  | none => s
  | some dayPlan =>
    let vocabScore := vocabScoreOf dayPlan s.vocabCorrect
    let grammarScore := grammarScoreOf dayPlan s.grammarCorrect
    let listeningScore := listeningScoreOf dayPlan s.listeningCorrect
    let eval := evaluateOutput dayPlan s.outputText
    let outputOk := eval.2
    let passed :=
      decide (vocabScore ≥ dayPlan.passRules.vocabMinCorrect) &&
      decide (grammarScore ≥ dayPlan.passRules.grammarMinCorrect) &&
      decide (listeningScore ≥ dayPlan.passRules.listeningMinCorrect) &&
      outputOk
    let s1 := { s with
      outputReport := some eval.1
      result := some { vocabScore, grammarScore, listeningScore, outputOk, passed } }
    if passed then
      let nextDay := safeDay s.progress + 1
      { s1 with progress := { s1.progress with
          maxUnlockedDay := max s1.progress.maxUnlockedDay nextDay
          currentDay := nextDay
          mode := "learn" } }
    else s1

/-- Day-change reset effect (App.jsx lines 214-235): when the effective day
changed, clear the three quiz instances and the output/result state. -/
def dayChangeReset (oldSafeDay : Int) (s : AppState) : AppState :=
  if safeDay s.progress ≠ oldSafeDay then
    { s with
      vocabCorrect := 0, vocabChosen := []
      grammarCorrect := 0, grammarChosen := []
      listeningCorrect := 0, listeningChosen := []
      outputText := "", outputReport := none, result := none }
  else s

/-- User actions whose interleavings the progress invariants quantify over. -/
inductive Op where
  | goToDay (d : Int)
  | evaluateAndAdvance

/-- One action followed by the day-change reset effect. -/
def stepOp (dayPlans : List DayPlan) (s : AppState) (op : Op) : AppState :=
  let old := safeDay s.progress
  let s1 := match op with
    | .goToDay d => goToDay d s
    | .evaluateAndAdvance => checkPassAndUnlock dayPlans s
  dayChangeReset old s1

/-- Run a sequence of actions. -/
def runOps (dayPlans : List DayPlan) (s : AppState) (ops : List Op) : AppState :=
  ops.foldl (stepOp dayPlans) s

/-! ## Answer recording (App.jsx lines 698-738, 746-784, 808-849):
each choice button is rendered with `disabled={locked}` where
`locked = chosen !== undefined`, so a click on an already-answered question
never reaches the handler; an un-answered click stores the choice via the
spread update and increments the set's correct count iff the choice equals
the question's correct answer. -/

/-- Clicking choice `c` of vocabulary question `i`. -/
def clickVocabChoice (dp : DayPlan) (i : Nat) (c : String) (s : AppState) : AppState :=
  if (objGet s.vocabChosen i).isSome then s
  else
    let s1 := { s with vocabChosen := objSet s.vocabChosen i c }
    if (dp.vocab_quiz[i]?).map VocabQ.answer = some c then
      { s1 with vocabCorrect := s1.vocabCorrect + 1 }
    else s1

/-- Clicking choice `c` of grammar question `i`. -/
def clickGrammarChoice (dp : DayPlan) (i : Nat) (c : String) (s : AppState) : AppState :=
  if (objGet s.grammarChosen i).isSome then s
  else
    let s1 := { s with grammarChosen := objSet s.grammarChosen i c }
    if (dp.grammar.quiz[i]?).map GrammarQ.a = some c then
      { s1 with grammarCorrect := s1.grammarCorrect + 1 }
    else s1

/-- Clicking choice `c` of the flattened listening question with key `k`
(whose question body is `q`). -/
def clickListeningChoice (q : ListenQ) (k : String) (c : String) (s : AppState) : AppState :=
  if (objGet s.listeningChosen k).isSome then s
  else
    let s1 := { s with listeningChosen := objSet s.listeningChosen k c }
    if q.a = c then
      { s1 with listeningCorrect := s1.listeningCorrect + 1 }
    else s1

/-! ## Speech queue controller (App.jsx lines 160-350) -/

/-- Controller state: the monotonic stop token (`stopTokenRef`), the pending
queue (`utterQueueRef`), the speaking flag (`isSpeaking`), and the current
utterance's text (`currentUtterRef`). -/
structure TTS where
  stopToken : Nat
  queue : List String
  speaking : Bool
  current : Option String
deriving DecidableEq

/-- App.jsx `stopSpeaking`: bump the stop token, then (whether or not the
engine is supported — the engine-side hard stop has no controller-state
effect) clear the speaking flag, the queue and the current utterance. -/
def stopSpeaking (ttsSupported : Bool) (s : TTS) : TTS :=
  let s1 := { s with stopToken := s.stopToken + 1 }
  if !ttsSupported then { s1 with speaking := false, queue := [], current := none }
  else { s1 with speaking := false, queue := [], current := none }

/-- Body of App.jsx `speakNext` for a loop that captured `myToken`: exit if
the token is stale, finish if the queue is empty, otherwise shift the head
off the queue and hand it to the engine as the current utterance. -/
def speakNext (myToken : Nat) (s : TTS) : TTS :=
  if s.stopToken ≠ myToken then { s with speaking := false, current := none }
  else
    match s.queue with
    | [] => { s with speaking := false, current := none }
    | next :: rest => { s with queue := rest, current := some next }

/-- The utterance's `onstart` callback: `() => setIsSpeaking(true)` — note
that it does not consult the captured token. -/
def onStart (myToken : Nat) (s : TTS) : TTS :=
  let _ := myToken
  { s with speaking := true }

/-- The utterance's `onend` callback: drop stale stragglers, else advance. -/
def onEnd (myToken : Nat) (s : TTS) : TTS :=
  if s.stopToken ≠ myToken then s else speakNext myToken s

/-- The utterance's `onerror` callback: identical to `onend`. -/
def onError (myToken : Nat) (s : TTS) : TTS :=
  if s.stopToken ≠ myToken then s else speakNext myToken s

/-- App.jsx `speakTextsAsQueue`: no-op when unsupported; otherwise stop the
current speech (bumping the token), filter out blank entries, and when any
remain store them as the queue and run the first `speakNext` iteration with
the fresh token captured as this call's identity. -/
def speakTextsAsQueue (ttsSupported : Bool) (texts : List String) (s : TTS) : TTS :=
  if !ttsSupported then s
  else
    let s1 := stopSpeaking ttsSupported s
    let queue := texts.filter (fun t => (jsTrim t).length > 0)
    if queue.length = 0 then s1
    else
      let s2 := { s1 with queue := queue }
      speakNext s2.stopToken s2

/-! ## Proof infrastructure: decimal digit strings -/

/-- Numeric value of a decimal digit character. -/
def digitVal (c : Char) : Nat := c.toNat - 48

/-- Numeric value of a decimal digit string (most significant first). -/
def digitsVal (l : List Char) : Nat := l.foldl (fun a c => 10 * a + digitVal c) 0

/-! ## Concrete fixtures used by witnesses and counterexamples -/

/-- Listening question used in fixtures. -/
def listenQ1 : ListenQ := { q := "Frage 1", choices := ["ja", "nein"], a := "ja" }

/-- Second listening question used in fixtures. -/
def listenQ2 : ListenQ := { q := "Frage 2", choices := ["ja", "nein"], a := "nein" }

/-- Day plan for the evaluator pass scenario: rules
`{minOutputChars:10, minSentences:2, mustIncludeAny:["schule"],
mustIncludeAllPatterns:[], mustUseVocabAtLeast:1}` with "Schule" in the
vocabulary list. -/
def dayPlanA : DayPlan :=
  { day := 1
    topic := "Alltag"
    vocab_list := [{ de := "Schule", en := "school" }]
    vocab_quiz := [{ word := "Schule", choices := ["school", "house"], answer := "school" },
                   { word := "Haus", choices := ["house", "dog"], answer := "house" }]
    grammar := { title := "Praesens", rules := [], examples := [], quiz := [] }
    listening := none
    output := { prompt := "Schreibe zwei Saetze." }
    outputRules := { mustIncludeAny := ["schule"], mustIncludeAllPatterns := [],
                     minSentences := 2, mustUseVocabAtLeast := 1 }
    passRules := { minOutputChars := 10, vocabMinCorrect := 1, grammarMinCorrect := 1,
                   listeningMinCorrect := 1 } }

/-- Scenario text. -/
def textA : String := "Ich gehe heute in die Schule. Das macht Spaß."

/-- Day plan with a two-segment listening block. -/
def dayPlanL : DayPlan :=
  { dayPlanA with
    listening := some
      { segments := some
          [{ id := 1, title := "Teil 1", text := "Text eins", «repeat» := 2,
             quiz := some [listenQ1, listenQ2] },
           { id := 2, title := "Teil 2", text := "Text zwei", «repeat» := 1,
             quiz := some [listenQ1] }]
        text := none
        quiz := none } }

/-- Legacy-shaped listening block with a non-empty text. -/
def legacyListening : Listening := { segments := none, text := some "Hallo Welt", quiz := none }

/-- Day plan carrying `legacyListening`. -/
def dayPlanLegacy : DayPlan := { dayPlanA with listening := some legacyListening }

/-- Listening block whose legacy `text` field is present but empty, with an
empty `segments` array. -/
def emptyTextListening : Listening := { segments := some [], text := some "", quiz := some [] }

/-- Day plan carrying `emptyTextListening`. -/
def dayPlanEmptyText : DayPlan := { dayPlanA with listening := some emptyTextListening }

/-- App state with one answer already recorded in each quiz set. -/
def answeredState : AppState :=
  { progress := { currentDay := 1, maxUnlockedDay := 1, mode := "learn" }
    vocabCorrect := 1, vocabChosen := [(0, "school")]
    grammarCorrect := 0, grammarChosen := [(0, "dem")]
    listeningCorrect := 0, listeningChosen := [("0-0", "ja")]
    outputText := "", outputReport := none, result := none }

/-- App state matching the unlock scenario: both vocabulary questions
answered correctly, scenario text entered, day 1 active. -/
def unlockState : AppState :=
  { progress := { currentDay := 1, maxUnlockedDay := 1, mode := "learn" }
    vocabCorrect := 2, vocabChosen := [(0, "school"), (1, "house")]
    grammarCorrect := 0, grammarChosen := []
    listeningCorrect := 0, listeningChosen := []
    outputText := textA, outputReport := none, result := none }

/-! ## Helper lemmas: decimal digit strings -/

theorem toDigitsCore_zero_fuel (n : Nat) (ds : List Char) :
    Nat.toDigitsCore 10 0 n ds = ds := by
  simp [Nat.toDigitsCore]

theorem toDigitsCore_succ_fuel (fuel n : Nat) (ds : List Char) :
    Nat.toDigitsCore 10 (fuel + 1) n ds =
      if n / 10 = 0 then Nat.digitChar (n % 10) :: ds
      else Nat.toDigitsCore 10 fuel (n / 10) (Nat.digitChar (n % 10) :: ds) := by
  simp [Nat.toDigitsCore]

theorem digitChar_mod_ne_dash (n : Nat) : Nat.digitChar (n % 10) ≠ '-' := by
  have h : n % 10 < 10 := Nat.mod_lt _ (by omega)
  revert h
  generalize n % 10 = m
  intro h
  interval_cases m <;> decide

theorem digitVal_digitChar_mod (n : Nat) : digitVal (Nat.digitChar (n % 10)) = n % 10 := by
  have h : n % 10 < 10 := Nat.mod_lt _ (by omega)
  revert h
  generalize n % 10 = m
  intro h
  interval_cases m <;> decide

theorem toDigitsCore_ne_dash :
    ∀ (fuel n : Nat) (ds : List Char), (∀ c ∈ ds, c ≠ '-') →
      ∀ c ∈ Nat.toDigitsCore 10 fuel n ds, c ≠ '-' := by
  intro fuel
  induction fuel with
  | zero =>
    intro n ds hds c hc
    rw [toDigitsCore_zero_fuel] at hc
    exact hds c hc
  | succ fuel ih =>
    intro n ds hds c hc
    rw [toDigitsCore_succ_fuel] at hc
    by_cases h0 : n / 10 = 0
    · rw [if_pos h0] at hc
      rcases List.mem_cons.mp hc with h | h
      · rw [h]; exact digitChar_mod_ne_dash n
      · exact hds c h
    · rw [if_neg h0] at hc
      refine ih (n / 10) (Nat.digitChar (n % 10) :: ds) ?_ c hc
      intro x hx
      rcases List.mem_cons.mp hx with h | h
      · rw [h]; exact digitChar_mod_ne_dash n
      · exact hds x h

theorem digitsVal_foldl (l : List Char) :
    ∀ a : Nat, l.foldl (fun a c => 10 * a + digitVal c) a = a * 10 ^ l.length + digitsVal l := by
  induction l with
  | nil => intro a; simp [digitsVal]
  | cons c t ih =>
    intro a
    have h1 := ih (10 * a + digitVal c)
    have h2 := ih (10 * 0 + digitVal c)
    simp only [List.foldl_cons, List.length_cons, digitsVal] at *
    rw [h1, h2]
    ring

theorem toDigitsCore_val :
    ∀ (fuel n : Nat) (ds : List Char), n < fuel →
      digitsVal (Nat.toDigitsCore 10 fuel n ds) = n * 10 ^ ds.length + digitsVal ds := by
  intro fuel
  induction fuel with
  | zero => intro n ds h; omega
  | succ fuel ih =>
    intro n ds h
    rw [toDigitsCore_succ_fuel]
    by_cases h0 : n / 10 = 0
    · rw [if_pos h0]
      have hn : n % 10 = n := by omega
      calc digitsVal (Nat.digitChar (n % 10) :: ds)
          = ds.foldl (fun a c => 10 * a + digitVal c) (10 * 0 + digitVal (Nat.digitChar (n % 10))) := by
            simp [digitsVal]
        _ = (10 * 0 + digitVal (Nat.digitChar (n % 10))) * 10 ^ ds.length + digitsVal ds := by
            rw [digitsVal_foldl]
        _ = n * 10 ^ ds.length + digitsVal ds := by
            rw [digitVal_digitChar_mod, hn]
            ring_nf
    · rw [if_neg h0]
      have hdiv : n / 10 < fuel := by
        have := Nat.div_lt_self (by omega : 0 < n) (by omega : 1 < 10)
        omega
      rw [ih (n / 10) (Nat.digitChar (n % 10) :: ds) hdiv]
      have hcons : digitsVal (Nat.digitChar (n % 10) :: ds)
          = (n % 10) * 10 ^ ds.length + digitsVal ds := by
        calc digitsVal (Nat.digitChar (n % 10) :: ds)
            = ds.foldl (fun a c => 10 * a + digitVal c) (10 * 0 + digitVal (Nat.digitChar (n % 10))) := by
              simp [digitsVal]
          _ = (10 * 0 + digitVal (Nat.digitChar (n % 10))) * 10 ^ ds.length + digitsVal ds := by
              rw [digitsVal_foldl]
          _ = (n % 10) * 10 ^ ds.length + digitsVal ds := by
              rw [digitVal_digitChar_mod]
              ring_nf
      rw [hcons, List.length_cons]
      have hmod : n / 10 * 10 + n % 10 = n := by omega
      calc n / 10 * 10 ^ (ds.length + 1) + ((n % 10) * 10 ^ ds.length + digitsVal ds)
          = (n / 10 * 10 + n % 10) * 10 ^ ds.length + digitsVal ds := by ring
        _ = n * 10 ^ ds.length + digitsVal ds := by rw [hmod]

theorem repr_data_ne_dash (n : Nat) : ∀ c ∈ (Nat.repr n).data, c ≠ '-' :=
  toDigitsCore_ne_dash (n + 1) n [] (by intro c hc; cases hc)

theorem digitsVal_repr_data (n : Nat) : digitsVal (Nat.repr n).data = n := by
  have h := toDigitsCore_val (n + 1) n [] (Nat.lt_succ_self n)
  simpa [digitsVal] using h

theorem repr_data_inj {a b : Nat} (h : (Nat.repr a).data = (Nat.repr b).data) : a = b := by
  have ha := digitsVal_repr_data a
  rw [h, digitsVal_repr_data] at ha
  omega

theorem append_dash_inj :
    ∀ (l₁ : List Char) {r₁ l₂ r₂ : List Char}, '-' ∉ l₁ → '-' ∉ l₂ →
      l₁ ++ '-' :: r₁ = l₂ ++ '-' :: r₂ → l₁ = l₂ ∧ r₁ = r₂ := by
  intro l₁
  induction l₁ with
  | nil =>
    intro r₁ l₂ r₂ _ h2 h
    cases l₂ with
    | nil => simpa using h
    | cons y ys =>
      exfalso
      simp only [List.nil_append, List.cons_append, List.cons.injEq] at h
      exact h2 (h.1 ▸ List.mem_cons_self y ys)
  | cons x xs ih =>
    intro r₁ l₂ r₂ h1 h2 h
    cases l₂ with
    | nil =>
      exfalso
      simp only [List.nil_append, List.cons_append, List.cons.injEq] at h
      exact h1 (h.1 ▸ List.mem_cons_self x xs)
    | cons y ys =>
      simp only [List.cons_append, List.cons.injEq] at h
      obtain ⟨hxy, htail⟩ := h
      have h1t : '-' ∉ xs := fun hm => h1 (List.mem_cons_of_mem x hm)
      have h2t : '-' ∉ ys := fun hm => h2 (List.mem_cons_of_mem y hm)
      obtain ⟨he, hr⟩ := ih h1t h2t htail
      exact ⟨by rw [hxy, he], hr⟩

theorem toString_nat_eq_repr (n : Nat) : toString n = Nat.repr n := rfl

theorem mkListeningKey_inj {a b c d : Nat}
    (h : mkListeningKey a b = mkListeningKey c d) : a = c ∧ b = d := by
  have hd : (Nat.repr a).data ++ '-' :: (Nat.repr b).data
      = (Nat.repr c).data ++ '-' :: (Nat.repr d).data := by
    have h2 := congrArg String.data h
    simpa [mkListeningKey, toString_nat_eq_repr, String.data_append] using h2
  have hna : '-' ∉ (Nat.repr a).data := fun hm => repr_data_ne_dash a _ hm rfl
  have hnc : '-' ∉ (Nat.repr c).data := fun hm => repr_data_ne_dash c _ hm rfl
  obtain ⟨h1, h2⟩ := append_dash_inj _ hna hnc hd
  exact ⟨repr_data_inj h1, repr_data_inj h2⟩

/-! ## Helper lemmas: enumeration order and progress updates -/

theorem pairwise_fst_lt_enum {α : Type} (l : List α) :
    l.enum.Pairwise (fun a b => a.1 < b.1) := by
  have h := List.pairwise_lt_range l.length
  rw [← List.enum_map_fst l, List.pairwise_map] at h
  exact h

theorem goToDayP_maxUnlockedDay (d : Int) (p : Progress) :
    (goToDayP d p).maxUnlockedDay = p.maxUnlockedDay := by
  unfold goToDayP
  split_ifs <;> rfl

theorem checkPassAndUnlock_maxUnlockedDay_le (dayPlans : List DayPlan) (s : AppState) :
    s.progress.maxUnlockedDay ≤ (checkPassAndUnlock dayPlans s).progress.maxUnlockedDay := by
  unfold checkPassAndUnlock
  split
  · exact le_refl _
  · dsimp only
    split
    · exact le_sup_left
    · exact le_refl _

theorem dayChangeReset_progress (old : Int) (s : AppState) :
    (dayChangeReset old s).progress = s.progress := by
  unfold dayChangeReset
  split_ifs <;> rfl

/-! ## Claim theorems -/

/-- C3: for each of the three quiz sets, once a question key has a recorded
answer, a further click on any choice of that question is rejected wholesale:
the component state (hence the stored choice and the correct-count) is
unchanged. -/
theorem recordAnswer_protective (dp : DayPlan) (s : AppState) (i : Nat) (k c : String)
    (q : ListenQ) :
    ((objGet s.vocabChosen i).isSome = true → clickVocabChoice dp i c s = s) ∧
    ((objGet s.grammarChosen i).isSome = true → clickGrammarChoice dp i c s = s) ∧
    ((objGet s.listeningChosen k).isSome = true → clickListeningChoice q k c s = s) := by
  refine ⟨?_, ?_, ?_⟩ <;> intro h
  · simp [clickVocabChoice, h]
  · simp [clickGrammarChoice, h]
  · simp [clickListeningChoice, h]

/-- Witness for C3 at a state with one answer recorded in each set. -/
theorem recordAnswer_protective_witness :
    (objGet answeredState.vocabChosen 0).isSome = true ∧
    clickVocabChoice dayPlanA 0 "house" answeredState = answeredState ∧
    clickGrammarChoice dayPlanA 0 "den" answeredState = answeredState ∧
    clickListeningChoice listenQ1 "0-0" "nein" answeredState = answeredState := by
  refine ⟨by decide, ?_, ?_, ?_⟩
  · exact (recordAnswer_protective dayPlanA answeredState 0 "0-0" "house" listenQ1).1 (by decide)
  · exact (recordAnswer_protective dayPlanA answeredState 0 "0-0" "den" listenQ1).2.1 (by decide)
  · exact (recordAnswer_protective dayPlanA answeredState 0 "0-0" "nein" listenQ1).2.2 (by decide)

/-- C4 counterexample: the `onstart` engine callback mutates the speaking
flag without comparing its captured token against the live one. After
`play(["a"])` then `stop()`, the live token is 2 while the utterance's
callbacks captured token 1 — yet the stale `onstart` still changes the
controller state. -/
theorem stale_onStart_mutates :
    (stopSpeaking true (speakTextsAsQueue true ["a"]
        { stopToken := 0, queue := [], speaking := false, current := none })).stopToken ≠ 1 ∧
    onStart 1 (stopSpeaking true (speakTextsAsQueue true ["a"]
        { stopToken := 0, queue := [], speaking := false, current := none }))
      ≠ stopSpeaking true (speakTextsAsQueue true ["a"]
        { stopToken := 0, queue := [], speaking := false, current := none }) := by
  decide

/-- C4 (amended): the `onend` and `onerror` engine callbacks compare their
captured token against the live token first, so a stale `onend`/`onerror`
is a no-op on the controller state; the `onstart` callback performs no such
check. -/
theorem stale_end_error_noop (tok : Nat) (s : TTS) (h : s.stopToken ≠ tok) :
    onEnd tok s = s ∧ onError tok s = s := by
  unfold onEnd onError
  rw [if_pos h]
  exact ⟨rfl, rfl⟩

/-- Witness for the amended C4 at a concrete stale token. -/
theorem stale_end_error_noop_witness :
    ({ stopToken := 2, queue := ["b"], speaking := true, current := some "a" } : TTS).stopToken ≠ 1 ∧
    onEnd 1 { stopToken := 2, queue := ["b"], speaking := true, current := some "a" }
      = { stopToken := 2, queue := ["b"], speaking := true, current := some "a" } ∧
    onError 1 { stopToken := 2, queue := ["b"], speaking := true, current := some "a" }
      = { stopToken := 2, queue := ["b"], speaking := true, current := some "a" } := by
  refine ⟨by decide, ?_, ?_⟩
  · exact (stale_end_error_noop 1 _ (by decide)).1
  · exact (stale_end_error_noop 1 _ (by decide)).2

/-- C5: `loadProgress` is total (no error escapes the `try`/`catch`), and on
an absent value, an unparseable value, a `null` parse (whose field access
throws and is caught), or a non-object parse, it returns exactly the default
progress `{currentDay: 1, maxUnlockedDay: 1, mode: "learn"}`. -/
theorem loadProgress_default_on_corrupt :
    loadProgress .absent = { currentDay := 1, maxUnlockedDay := 1, mode := "learn" } ∧
    loadProgress .unparseable = { currentDay := 1, maxUnlockedDay := 1, mode := "learn" } ∧
    loadProgress .null = { currentDay := 1, maxUnlockedDay := 1, mode := "learn" } ∧
    loadProgress .primitive = { currentDay := 1, maxUnlockedDay := 1, mode := "learn" } :=
  ⟨rfl, rfl, rfl, rfl⟩

/-- C6: for each of the three quiz sets, the score computed by
`checkPassAndUnlock` is `correctCount / totalQuestions`, and exactly 1 when
the set has zero questions. -/
theorem quiz_score_spec (dp : DayPlan) (c : Nat) :
    (dp.vocab_quiz.length = 0 → vocabScoreOf dp c = 1) ∧
    (dp.vocab_quiz.length ≠ 0 →
      vocabScoreOf dp c = (c : ℚ) / (dp.vocab_quiz.length : ℚ)) ∧
    (dp.grammar.quiz.length = 0 → grammarScoreOf dp c = 1) ∧
    (dp.grammar.quiz.length ≠ 0 →
      grammarScoreOf dp c = (c : ℚ) / (dp.grammar.quiz.length : ℚ)) ∧
    ((flattenListeningQuiz (some dp)).length = 0 → listeningScoreOf dp c = 1) ∧
    ((flattenListeningQuiz (some dp)).length ≠ 0 →
      listeningScoreOf dp c = (c : ℚ) / ((flattenListeningQuiz (some dp)).length : ℚ)) := by
  unfold vocabScoreOf grammarScoreOf listeningScoreOf
  refine ⟨?_, ?_, ?_, ?_, ?_, ?_⟩ <;> intro h <;> simp [h]

/-- Witness for C6: the fixture's grammar quiz is empty (score 1) and its
vocabulary quiz has two questions (score `1/2` at one correct answer). -/
theorem quiz_score_spec_witness :
    dayPlanA.grammar.quiz.length = 0 ∧ grammarScoreOf dayPlanA 1 = 1 ∧
    dayPlanA.vocab_quiz.length ≠ 0 ∧
    vocabScoreOf dayPlanA 1 = (1 : ℚ) / (dayPlanA.vocab_quiz.length : ℚ) := by
  refine ⟨rfl, ?_, by decide, ?_⟩
  · exact (quiz_score_spec dayPlanA 1).2.2.1 rfl
  · exact (quiz_score_spec dayPlanA 1).2.1 (by decide)

/-- C7 (Scenario A): with rules requiring 10 characters, 2 sentences, any of
`["schule"]`, no patterns and 1 vocabulary term, and "Schule" in the
vocabulary list, the text "Ich gehe heute in die Schule. Das macht Spaß."
evaluates to 2 sentences, keyword check true, vocabulary usage 1, and an
overall pass. -/
theorem evaluateOutput_scenarioA :
    (evaluateOutput dayPlanA textA).1.sentences = 2 ∧
    (evaluateOutput dayPlanA textA).1.keywordOk = true ∧
    (evaluateOutput dayPlanA textA).1.vocabUsedCount = 1 ∧
    (evaluateOutput dayPlanA textA).2 = true := by
  decide

/-- C8: `goToDay(d)` is a no-op when `d < 1` or `d > maxUnlockedDay`;
otherwise it sets `currentDay = d`, forces learn mode, and leaves
`maxUnlockedDay` unchanged. -/
theorem goToDay_spec (d : Int) (p : Progress) :
    ((d < 1 ∨ d > p.maxUnlockedDay) → goToDayP d p = p) ∧
    (1 ≤ d → d ≤ p.maxUnlockedDay →
      goToDayP d p =
        { currentDay := d, maxUnlockedDay := p.maxUnlockedDay, mode := "learn" }) := by
  unfold goToDayP
  constructor
  · rintro (h | h)
    · rw [if_pos h]
    · by_cases h1 : d < 1
      · rw [if_pos h1]
      · rw [if_neg h1, if_pos h]
  · intro h1 h2
    rw [if_neg (by omega), if_neg (by omega)]

/-- Witness for C8: rejection at day 0 and at a locked day, acceptance at an
unlocked day. -/
theorem goToDay_spec_witness :
    ((0 : Int) < 1 ∨ (0 : Int) > (3 : Int)) ∧
    goToDayP 0 { currentDay := 1, maxUnlockedDay := 3, mode := "quiz" }
      = { currentDay := 1, maxUnlockedDay := 3, mode := "quiz" } ∧
    goToDayP 2 { currentDay := 1, maxUnlockedDay := 3, mode := "quiz" }
      = { currentDay := 2, maxUnlockedDay := 3, mode := "learn" } := by
  refine ⟨Or.inl (by decide), ?_, ?_⟩
  · exact (goToDay_spec 0 _).1 (Or.inl (by decide))
  · exact (goToDay_spec 2 _).2 (by decide) (by decide)

/-- C9: flattening the listening quiz emits questions in segment order and,
within a segment, in question order (the emitted `(segIndex, qIndex)` pairs
are strictly lexicographically increasing); every emitted item carries the
question found at its indices and the composite key built from them; and the
emitted keys are pairwise distinct. -/
theorem flattenListeningQuiz_spec (dayPlan : Option DayPlan) :
    (flattenListeningQuiz dayPlan).Pairwise
      (fun a b => a.segIndex < b.segIndex ∨ (a.segIndex = b.segIndex ∧ a.qIndex < b.qIndex)) ∧
    ((flattenListeningQuiz dayPlan).map FlatItem.key).Nodup ∧
    ∀ it ∈ flattenListeningQuiz dayPlan,
      ((getListeningSegments dayPlan)[it.segIndex]?.bind
        (fun sg => (sg.quiz.getD [])[it.qIndex]?)) = some it.q ∧
      it.key = mkListeningKey it.segIndex it.qIndex := by
  have hpw : (flattenListeningQuiz dayPlan).Pairwise
      (fun a b => a.segIndex < b.segIndex ∨ (a.segIndex = b.segIndex ∧ a.qIndex < b.qIndex)) := by
    unfold flattenListeningQuiz
    rw [List.pairwise_flatMap]
    constructor
    · intro si _
      rw [List.pairwise_map]
      exact (pairwise_fst_lt_enum _).imp (fun hlt => Or.inr ⟨rfl, hlt⟩)
    · refine (pairwise_fst_lt_enum _).imp ?_
      intro s₁ s₂ hlt x hx y hy
      rw [List.mem_map] at hx hy
      obtain ⟨qx, _, rfl⟩ := hx
      obtain ⟨qy, _, rfl⟩ := hy
      exact Or.inl hlt
  have hmem : ∀ it ∈ flattenListeningQuiz dayPlan,
      ((getListeningSegments dayPlan)[it.segIndex]?.bind
        (fun sg => (sg.quiz.getD [])[it.qIndex]?)) = some it.q ∧
      it.key = mkListeningKey it.segIndex it.qIndex := by
    intro it hit
    unfold flattenListeningQuiz at hit
    rw [List.mem_flatMap] at hit
    obtain ⟨si, hsi, hit⟩ := hit
    rw [List.mem_map] at hit
    obtain ⟨qi, hqi, rfl⟩ := hit
    rw [List.mem_enum_iff_getElem?] at hsi hqi
    refine ⟨?_, rfl⟩
    simp [hsi, hqi]
  refine ⟨hpw, ?_, hmem⟩
  show ((flattenListeningQuiz dayPlan).map FlatItem.key).Pairwise (fun a b => a ≠ b)
  rw [List.pairwise_map]
  refine hpw.imp_of_mem ?_
  intro a b ha hb hR hkey
  obtain ⟨-, hka⟩ := hmem a ha
  obtain ⟨-, hkb⟩ := hmem b hb
  rw [hka, hkb] at hkey
  obtain ⟨h1, h2⟩ := mkListeningKey_inj hkey
  rcases hR with h | ⟨-, h⟩ <;> omega

/-- Witness for C9 at a two-segment plan, instantiating the membership
clause at the item `(0, 1)`. -/
theorem flattenListeningQuiz_spec_witness :
    ({ segIndex := 0, qIndex := 1, q := listenQ2, key := "0-1" } : FlatItem)
      ∈ flattenListeningQuiz (some dayPlanL) ∧
    ((getListeningSegments (some dayPlanL))[0]?.bind
      (fun sg => (sg.quiz.getD [])[1]?)) = some listenQ2 ∧
    ("0-1" : String) = mkListeningKey 0 1 := by
  refine ⟨by decide, ?_, ?_⟩
  · exact ((flattenListeningQuiz_spec (some dayPlanL)).2.2
      { segIndex := 0, qIndex := 1, q := listenQ2, key := "0-1" } (by decide)).1
  · exact ((flattenListeningQuiz_spec (some dayPlanL)).2.2
      { segIndex := 0, qIndex := 1, q := listenQ2, key := "0-1" } (by decide)).2

/-- C10 counterexample: with an empty `segments` array and a *present but
empty* legacy `text` field, `getListeningSegments` returns the empty list —
not the claimed single normalized legacy segment — because the code tests
`if (L.text)`, i.e. truthiness, not presence. -/
theorem getListeningSegments_emptyText_cex :
    getListeningSegments (some dayPlanEmptyText) = [] ∧
    ([] : List Segment) ≠
      [{ id := 1, title := "Listening", text := "", «repeat» := 1, quiz := some [] }] := by
  exact ⟨by decide, by decide⟩

/-- C10 (amended): `getListeningSegments` is total; a non-empty `segments`
array is returned unchanged; when `segments` is missing or empty and the
legacy `text` is present *and non-empty (truthy)*, it returns the single
normalized legacy segment (with the quiz defaulting to `[]` when the legacy
quiz is not an array); in every other case — plan or listening block absent,
or `segments` missing/empty with `text` absent or empty — it returns `[]`. -/
theorem getListeningSegments_spec :
    getListeningSegments none = [] ∧
    (∀ dp : DayPlan, dp.listening = none → getListeningSegments (some dp) = []) ∧
    (∀ (dp : DayPlan) (L : Listening), dp.listening = some L →
      (∀ sg segs, L.segments = some (sg :: segs) → getListeningSegments (some dp) = sg :: segs) ∧
      ((L.segments = none ∨ L.segments = some []) → ∀ t, L.text = some t → t ≠ "" →
        getListeningSegments (some dp) =
          [{ id := 1, title := "Listening", text := t, «repeat» := 1,
             quiz := some (L.quiz.getD []) }]) ∧
      ((L.segments = none ∨ L.segments = some []) → (L.text = none ∨ L.text = some "") →
        getListeningSegments (some dp) = [])) := by
  refine ⟨rfl, ?_, ?_⟩
  · intro dp h
    simp [getListeningSegments, h]
  · intro dp L h
    refine ⟨?_, ?_, ?_⟩
    · intro sg segs hs
      simp [getListeningSegments, h, hs]
    · rintro (hs | hs) t ht hne <;> simp [getListeningSegments, h, hs, ht, hne]
    · rintro (hs | hs) (ht | ht) <;> simp [getListeningSegments, h, hs, ht]

/-- Witness for the amended C10: a legacy block with non-empty text yields
the normalized single segment. -/
theorem getListeningSegments_spec_witness :
    dayPlanLegacy.listening = some legacyListening ∧
    getListeningSegments (some dayPlanLegacy) =
      [{ id := 1, title := "Listening", text := "Hallo Welt", «repeat» := 1,
         quiz := some [] }] := by
  refine ⟨rfl, ?_⟩
  exact (getListeningSegments_spec.2.2 dayPlanLegacy legacyListening rfl).2.1
    (Or.inl rfl) "Hallo Welt" rfl (by decide)

/-- C2: across any sequence of `goToDay` and `evaluateAndAdvance`
(`checkPassAndUnlock`) actions, `maxUnlockedDay` never decreases: `goToDay`
never writes it and a passing evaluation replaces it with a max of itself. -/
theorem maxUnlockedDay_monotone (dayPlans : List DayPlan) (ops : List Op) :
    ∀ s : AppState,
      s.progress.maxUnlockedDay ≤ (runOps dayPlans s ops).progress.maxUnlockedDay := by
  induction ops with
  | nil => intro s; exact le_refl _
  | cons op rest ih =>
    intro s
    have h1 : s.progress.maxUnlockedDay ≤ (stepOp dayPlans s op).progress.maxUnlockedDay := by
      cases op with
      | goToDay d => simp [stepOp, dayChangeReset_progress, goToDay, goToDayP_maxUnlockedDay]
      | evaluateAndAdvance =>
        simpa [stepOp, dayChangeReset_progress] using
          checkPassAndUnlock_maxUnlockedDay_le dayPlans s
    have h3 : runOps dayPlans s (op :: rest) = runOps dayPlans (stepOp dayPlans s op) rest := by
      simp [runOps]
    rw [h3]
    exact le_trans h1 (ih (stepOp dayPlans s op))

/-- C1: when a day plan is active, `checkPassAndUnlock` stores a verdict
whose `passed` field is the conjunction of the three score-threshold checks
and the output check; on a pass it rewrites the progress in one update to
`{currentDay := activeDay+1, maxUnlockedDay := max(maxUnlockedDay,
activeDay+1), mode := "learn"}`, and on a failure it leaves the progress
untouched. -/
theorem checkPassAndUnlock_spec (dayPlans : List DayPlan) (s : AppState) (dp : DayPlan)
    (hfind : dayPlans.find? (fun d => d.day == safeDay s.progress) = some dp) :
    let passCond : Prop :=
      vocabScoreOf dp s.vocabCorrect ≥ dp.passRules.vocabMinCorrect ∧
      grammarScoreOf dp s.grammarCorrect ≥ dp.passRules.grammarMinCorrect ∧
      listeningScoreOf dp s.listeningCorrect ≥ dp.passRules.listeningMinCorrect ∧
      (evaluateOutput dp s.outputText).2 = true
    (∃ v : Verdict, (checkPassAndUnlock dayPlans s).result = some v ∧
      (v.passed = true ↔ passCond)) ∧
    (passCond → (checkPassAndUnlock dayPlans s).progress =
      { currentDay := safeDay s.progress + 1
        maxUnlockedDay := max s.progress.maxUnlockedDay (safeDay s.progress + 1)
        mode := "learn" }) ∧
    (¬ passCond → (checkPassAndUnlock dayPlans s).progress = s.progress) := by
  intro passCond
  have hdec : (decide (vocabScoreOf dp s.vocabCorrect ≥ dp.passRules.vocabMinCorrect) &&
      decide (grammarScoreOf dp s.grammarCorrect ≥ dp.passRules.grammarMinCorrect) &&
      decide (listeningScoreOf dp s.listeningCorrect ≥ dp.passRules.listeningMinCorrect) &&
      (evaluateOutput dp s.outputText).2) = true ↔ passCond := by
    simp only [Bool.and_eq_true, decide_eq_true_iff]
    constructor
    · rintro ⟨⟨⟨h1, h2⟩, h3⟩, h4⟩; exact ⟨h1, h2, h3, h4⟩
    · rintro ⟨h1, h2, h3, h4⟩; exact ⟨⟨⟨h1, h2⟩, h3⟩, h4⟩
  unfold checkPassAndUnlock
  rw [hfind]
  dsimp only
  by_cases hp : passCond
  · rw [if_pos (hdec.mpr hp)]
    exact ⟨⟨_, rfl, hdec⟩, fun _ => rfl, fun hnp => absurd hp hnp⟩
  · rw [if_neg (fun hc => hp (hdec.mp hc))]
    exact ⟨⟨_, rfl, hdec⟩, fun hpp => absurd hpp hp, fun _ => rfl⟩

/-- Witness for C1 at the unlock scenario: day 1 active, both vocabulary
questions correct, empty grammar/listening quizzes, passing output text —
the progress advances to `{currentDay: 2, maxUnlockedDay: 2, mode: "learn"}`. -/
theorem checkPassAndUnlock_spec_witness :
    [dayPlanA].find? (fun d => d.day == safeDay unlockState.progress) = some dayPlanA ∧
    (checkPassAndUnlock [dayPlanA] unlockState).progress =
      { currentDay := 2, maxUnlockedDay := 2, mode := "learn" } := by
  refine ⟨rfl, ?_⟩
  have h := checkPassAndUnlock_spec [dayPlanA] unlockState dayPlanA rfl
  dsimp only at h
  refine h.2.1 ⟨?_, ?_, ?_, by decide⟩
  · norm_num [vocabScoreOf, dayPlanA, unlockState]
  · norm_num [grammarScoreOf, dayPlanA, unlockState]
  · norm_num [listeningScoreOf, flattenListeningQuiz, getListeningSegments, dayPlanA, unlockState]

end A2Trainer
